import Mathlib

/-!
Shallow embedding of `src/keystore2/src/permission.rs` (Keystore 2.0 access
control primitives) and proofs about its permission catalogs, the
`KeyPermSet` bitset, and the decision functions `check_grant_permission`
and `check_key_permission`.

The SELinux layer (`keystore2_selinux`) is an external collaborator: it is
modelled as a record of oracle functions (`getcon`, backend namespace
lookup, `check_access`).  Each decision function is embedded as a pure
function of its inputs and the oracle, returning its `Result` together
with the list of `selinux::check_access` invocations it performed, in
order, so that claims about which backend checks are issued can be stated.
-/

namespace Keystore2

/-- An SELinux security context label (`selinux::Context`).  Opaque to the
permission module; it is only ever produced by the backend and passed back
into `check_access`. -/
abbrev Context := String

/-- The error kinds that the permission module can surface, following the
root causes used by `permission.rs`:
`perm` is `selinux::Error::perm()` (a definite permission-denied verdict),
`sys` is `KsError::sys()` (caller-side contract violation), and
`backend` stands for any other failure coming out of the selinux
collaborator (context resolution fault, avc failure, ...). -/
inductive KsError where
  | perm : KsError
  | sys : KsError
  | backend : String → KsError
deriving DecidableEq

/-- The `Domain` tag of an `aidl::KeyDescriptor`. -/
inductive Domain where
  | App : Domain
  | Grant : Domain
  | SELinux : Domain
  | KeyId : Domain
  | Blob : Domain
deriving DecidableEq

/-- `aidl::KeyDescriptor`.  The Rust field `alias` is rendered `alias_`
because `alias` is a Lean command keyword; only `domain` and `namespace_`
are read by the permission module. -/
structure KeyDescriptor where
  domain : Domain
  namespace_ : Int
  alias_ : Option String
  blob : Option (List Nat)

/-- `aidl::KeyPermission`, the key-permission catalog (11 permissions plus
the `None` sentinel). -/
inductive KeyPermission where
  | None : KeyPermission
  | Delete : KeyPermission
  | GenUniqueId : KeyPermission
  | GetInfo : KeyPermission
  | Grant : KeyPermission
  | List : KeyPermission
  | ManageBlob : KeyPermission
  | Rebind : KeyPermission
  | ReqForcedOp : KeyPermission
  | Update : KeyPermission
  | Use : KeyPermission
  | UseDevId : KeyPermission
deriving DecidableEq, Fintype

/-- `KeyPerm` is the newtype wrapper around `aidl::KeyPermission`; the
wrapper carries no extra data, so it is identified with the enum. -/
abbrev KeyPerm := KeyPermission

/-- The wire code of each key permission (`variant as i32`). -/
def KeyPermission.code : KeyPermission → Int
  | KeyPermission.None => 0
  | KeyPermission.Delete => 1
  | KeyPermission.GenUniqueId => 2
  | KeyPermission.GetInfo => 4
  | KeyPermission.Grant => 8
  | KeyPermission.List => 0x10
  | KeyPermission.ManageBlob => 0x20
  | KeyPermission.Rebind => 0x40
  | KeyPermission.ReqForcedOp => 0x80
  | KeyPermission.Update => 0x100
  | KeyPermission.Use => 0x200
  | KeyPermission.UseDevId => 0x400

/-- `impl From<i32> for KeyPerm` generated by `implement_permission!`:
each defined code maps to its variant, every other value to the default
`None`. -/
def KeyPerm.fromInt (p : Int) : KeyPerm :=
  match p with
  | 0 => KeyPermission.None
  | 1 => KeyPermission.Delete
  | 2 => KeyPermission.GenUniqueId
  | 4 => KeyPermission.GetInfo
  | 8 => KeyPermission.Grant
  | 0x10 => KeyPermission.List
  | 0x20 => KeyPermission.ManageBlob
  | 0x40 => KeyPermission.Rebind
  | 0x80 => KeyPermission.ReqForcedOp
  | 0x100 => KeyPermission.Update
  | 0x200 => KeyPermission.Use
  | 0x400 => KeyPermission.UseDevId
  | _ => KeyPermission.None

/-- `KeyPerm::to_selinux`, the SELinux string name of each permission. -/
def KeyPerm.to_selinux : KeyPerm → String
  | KeyPermission.None => "none"
  | KeyPermission.Delete => "delete"
  | KeyPermission.GenUniqueId => "gen_unique_id"
  | KeyPermission.GetInfo => "get_info"
  | KeyPermission.Grant => "grant"
  | KeyPermission.List => "list"
  | KeyPermission.ManageBlob => "manage_blob"
  | KeyPermission.Rebind => "rebind"
  | KeyPermission.ReqForcedOp => "req_forced_op"
  | KeyPermission.Update => "update"
  | KeyPermission.Use => "use"
  | KeyPermission.UseDevId => "use_dev_id"

/-- `KeystorePermission`, the service-permission catalog (6 permissions
plus the `None` sentinel). -/
inductive KeystorePermission where
  | None : KeystorePermission
  | AddAuth : KeystorePermission
  | ClearNs : KeystorePermission
  | GetState : KeystorePermission
  | Lock : KeystorePermission
  | Reset : KeystorePermission
  | Unlock : KeystorePermission
deriving DecidableEq, Fintype

/-- `KeystorePerm` wraps `KeystorePermission`; identified with the enum. -/
abbrev KeystorePerm := KeystorePermission

/-- The wire code of each service permission (`variant as i32`). -/
def KeystorePermission.code : KeystorePermission → Int
  | KeystorePermission.None => 0
  | KeystorePermission.AddAuth => 1
  | KeystorePermission.ClearNs => 2
  | KeystorePermission.GetState => 4
  | KeystorePermission.Lock => 8
  | KeystorePermission.Reset => 0x10
  | KeystorePermission.Unlock => 0x20

/-- `impl From<i32> for KeystorePerm` generated by
`implement_permission!`. -/
def KeystorePerm.fromInt (p : Int) : KeystorePerm :=
  match p with
  | 0 => KeystorePermission.None
  | 1 => KeystorePermission.AddAuth
  | 2 => KeystorePermission.ClearNs
  | 4 => KeystorePermission.GetState
  | 8 => KeystorePermission.Lock
  | 0x10 => KeystorePermission.Reset
  | 0x20 => KeystorePermission.Unlock
  | _ => KeystorePermission.None

/-- `KeystorePerm::to_selinux`. -/
def KeystorePerm.to_selinux : KeystorePerm → String
  | KeystorePermission.None => "none"
  | KeystorePermission.AddAuth => "add_auth"
  | KeystorePermission.ClearNs => "clear_ns"
  | KeystorePermission.GetState => "get_state"
  | KeystorePermission.Lock => "lock"
  | KeystorePermission.Reset => "reset"
  | KeystorePermission.Unlock => "unlock"

/-- `KeyPermSet(i32)`: `bits` is the two's complement bit pattern of the
wrapped `i32` (a natural number below `2 ^ 32` for genuine i32 values;
all bitwise operations below agree with the Rust ones on bit patterns). -/
structure KeyPermSet where
  bits : Nat
deriving DecidableEq

/-- `impl From<KeyPerm> for KeyPermSet`: `Self(p.0 as i32)`.  All catalog
codes are nonnegative, so the bit pattern is the code itself. -/
def KeyPermSet.ofPerm (p : KeyPerm) : KeyPermSet :=
  KeyPermSet.mk (KeyPermission.code p).toNat

/-- The `key_perm_set![...]` macro: bitwise OR of the member codes. -/
def key_perm_set (ps : List KeyPerm) : KeyPermSet :=
  KeyPermSet.mk (ps.foldl (fun acc p => acc ||| (KeyPermission.code p).toNat) 0)

/-- `KeyPermSet::includes`: `(self.0 & o.0) == o.0`. -/
def KeyPermSet.includes (s other : KeyPermSet) : Bool :=
  (s.bits &&& other.bits) == other.bits

/-- Interprets a 32-bit pattern as the value of the Rust `i32` holding it
(used where the iterator passes the isolated bit `self.vec.0 & (1 << pos)`
to `KeyPerm::from(p: i32)`). -/
def toI32 (n : Nat) : Int :=
  if n < 2 ^ 31 then (n : Int) else (n : Int) - 2 ^ 32

/-- The loop of `perm::IntoIter::next`, unrolled over the whole set: with
`k` positions left to scan starting at bit `pos`, emit
`KeyPerm::from(self.vec.0 & (1 << pos))` for every set bit and stop when
the position counter reaches 32 (`k = 0`).  The source guard is
`pos == 32`; `pos` starts at 0 and increases by 1, so counting down the
remaining `32 - pos` positions is the same loop, made structurally
recursive. -/
def iterItemsAux (v : Nat) : Nat → Nat → List KeyPerm
  | 0, _ => []
  | k + 1, pos =>
    if v &&& (1 <<< pos) ≠ 0 then
      KeyPerm.fromInt (toI32 (v &&& (1 <<< pos))) :: iterItemsAux v k (pos + 1)
    else
      iterItemsAux v k (pos + 1)

/-- The full sequence produced by `KeyPermSet::into_iter()` (a fresh
iterator starts at `pos = 0`). -/
def KeyPermSet.toList (s : KeyPermSet) : List KeyPerm :=
  iterItemsAux s.bits 32 0

/-- One `selinux::check_access(scontext, tcontext, tclass, perm)`
invocation, recorded for trace claims. -/
structure AccessCall where
  scontext : Context
  tcontext : Context
  tclass : String
  perm : String
deriving DecidableEq

/-- `selinux::KeystoreKeyBackend`: resolves a namespace id (rendered as a
string by `format!`) to a target context; not-found is an error. -/
structure KeystoreKeyBackend where
  lookup : String → Except KsError Context

/-- The external selinux collaborator: `getcon`, backend construction
(`KeystoreKeyBackend::new()`), and the access-check oracle. -/
structure SelinuxEnv where
  getcon : Except KsError Context
  newKeystoreKeyBackend : Except KsError KeystoreKeyBackend
  check_access : Context → Context → String → String → Except KsError Unit

/-- `KeystoreKeyBackend::new()` followed by
`backend.lookup(format!("{}", ns).as_str())`, as performed in the
`Domain::SELinux` and `Domain::Blob` branches. -/
def lookup_namespace (env : SelinuxEnv) (ns : Int) : Except KsError Context :=
  match env.newKeystoreKeyBackend with
  | Except.error e => Except.error e
  | Except.ok backend => backend.lookup (toString ns)

/-- Target-context resolution of `check_grant_permission`:
`Domain::App` uses `getcon()`, `Domain::SELinux` the namespace lookup, and
any other domain is rejected with `KsError::sys()`
("Cannot grant {:?}."). -/
def grant_target_context (env : SelinuxEnv) (key : KeyDescriptor) :
    Except KsError Context :=
  match key.domain with
  | Domain.App => env.getcon
  | Domain.SELinux => lookup_namespace env key.namespace_
  | _ => Except.error KsError.sys

/-- The `for p in access_vec.into_iter()` loop of
`check_grant_permission`: check each permission's selinux name in class
`keystore2_key`; the first failing check aborts the loop with its error. -/
def check_grant_loop (env : SelinuxEnv) (caller_ctx target_context : Context) :
    List KeyPerm → Except KsError Unit × List AccessCall
  | [] => (Except.ok (), [])
  | p :: ps =>
    match env.check_access caller_ctx target_context "keystore2_key"
        (KeyPerm.to_selinux p) with
    | Except.error e =>
        (Except.error e,
          [AccessCall.mk caller_ctx target_context "keystore2_key"
            (KeyPerm.to_selinux p)])
    | Except.ok _ =>
        let r := check_grant_loop env caller_ctx target_context ps
        (r.1,
          AccessCall.mk caller_ctx target_context "keystore2_key"
            (KeyPerm.to_selinux p) :: r.2)

/-- `check_grant_permission(caller_ctx, access_vec, key)`: resolve the
target context by domain; require the class-level `"grant"` permission;
unconditionally refuse to delegate `KeyPerm::grant()`; then check every
requested permission.  The second component is the ordered list of
`check_access` calls performed. -/
def check_grant_permission (env : SelinuxEnv) (caller_ctx : Context)
    (access_vec : KeyPermSet) (key : KeyDescriptor) :
    Except KsError Unit × List AccessCall :=
  match grant_target_context env key with
  | Except.error e => (Except.error e, [])
  | Except.ok target_context =>
    match env.check_access caller_ctx target_context "keystore2_key" "grant" with
    | Except.error e =>
        (Except.error e,
          [AccessCall.mk caller_ctx target_context "keystore2_key" "grant"])
    | Except.ok _ =>
      if KeyPermSet.includes access_vec (KeyPermSet.ofPerm KeyPermission.Grant) then
        (Except.error KsError.perm,
          [AccessCall.mk caller_ctx target_context "keystore2_key" "grant"])
      else
        let r := check_grant_loop env caller_ctx target_context
          (KeyPermSet.toList access_vec)
        (r.1,
          AccessCall.mk caller_ctx target_context "keystore2_key" "grant" :: r.2)

/-- `check_key_permission(caller_ctx, perm, key, access_vector)`:
dispatch on `key.domain`; `App`/`SELinux`/`Blob` end with the final
`check_access` on `perm.to_selinux()` against the resolved target
context, `Blob` first requires `"manage_blob"`, `Grant` is decided
locally from the access vector, and `KeyId` is a caller-contract
violation.  The second component is the ordered list of `check_access`
calls performed. -/
def check_key_permission (env : SelinuxEnv) (caller_ctx : Context)
    (perm : KeyPerm) (key : KeyDescriptor) (access_vector : Option KeyPermSet) :
    Except KsError Unit × List AccessCall :=
  match key.domain with
  | Domain.App =>
    match env.getcon with
    | Except.error e => (Except.error e, [])
    | Except.ok target_context =>
        (env.check_access caller_ctx target_context "keystore2_key"
            (KeyPerm.to_selinux perm),
          [AccessCall.mk caller_ctx target_context "keystore2_key"
            (KeyPerm.to_selinux perm)])
  | Domain.SELinux =>
    match lookup_namespace env key.namespace_ with
    | Except.error e => (Except.error e, [])
    | Except.ok target_context =>
        (env.check_access caller_ctx target_context "keystore2_key"
            (KeyPerm.to_selinux perm),
          [AccessCall.mk caller_ctx target_context "keystore2_key"
            (KeyPerm.to_selinux perm)])
  | Domain.Grant =>
    match access_vector with
    | some pv =>
        if KeyPermSet.includes pv (KeyPermSet.ofPerm perm) then
          (Except.ok (), [])
        else
          (Except.error KsError.perm, [])
    | none => (Except.error KsError.sys, [])
  | Domain.KeyId => (Except.error KsError.sys, [])
  | Domain.Blob =>
    match lookup_namespace env key.namespace_ with
    | Except.error e => (Except.error e, [])
    | Except.ok tctx =>
      match env.check_access caller_ctx tctx "keystore2_key"
          (KeyPerm.to_selinux KeyPermission.ManageBlob) with
      | Except.error e =>
          (Except.error e,
            [AccessCall.mk caller_ctx tctx "keystore2_key"
              (KeyPerm.to_selinux KeyPermission.ManageBlob)])
      | Except.ok _ =>
          (env.check_access caller_ctx tctx "keystore2_key"
              (KeyPerm.to_selinux perm),
            [AccessCall.mk caller_ctx tctx "keystore2_key"
              (KeyPerm.to_selinux KeyPermission.ManageBlob),
             AccessCall.mk caller_ctx tctx "keystore2_key"
              (KeyPerm.to_selinux perm)])

/-- `check_keystore_permission(caller_ctx, perm)`: target is the
service's own context, class `keystore2`. -/
def check_keystore_permission (env : SelinuxEnv) (caller_ctx : Context)
    (perm : KeystorePerm) : Except KsError Unit × List AccessCall :=
  match env.getcon with
  | Except.error e => (Except.error e, [])
  | Except.ok target_context =>
      (env.check_access caller_ctx target_context "keystore2"
          (KeystorePerm.to_selinux perm),
        [AccessCall.mk caller_ctx target_context "keystore2"
          (KeystorePerm.to_selinux perm)])

/-- Helper: the iterator loop starting at bit `pos` with `k` positions to
scan emits exactly the set bits among positions `pos, pos+1, ...,
pos+k-1`, in ascending order, each decoded from its isolated bit value. -/
theorem iterItemsAux_eq (v : Nat) :
    ∀ (k pos : Nat), iterItemsAux v k pos =
      ((List.range' pos k).filter (fun i => Nat.testBit v i)).map
        (fun i => KeyPerm.fromInt (toI32 (1 <<< i)))
  | 0, _ => rfl
  | k + 1, pos => by
    have hshift : (1 : Nat) <<< pos = 2 ^ pos := by
      rw [Nat.shiftLeft_eq, one_mul]
    have hand : v &&& (1 <<< pos) = (Nat.testBit v pos).toNat * 2 ^ pos := by
      rw [hshift, Nat.and_two_pow]
    rw [List.range'_succ, List.filter_cons]
    cases hb : Nat.testBit v pos with
    | true =>
      have hv : v &&& (1 <<< pos) = 1 <<< pos := by
        rw [hand, hb, Bool.toNat_true, one_mul, hshift]
      have hp : v &&& (1 <<< pos) ≠ 0 := by
        rw [hv, hshift]
        exact Nat.pos_iff_ne_zero.mp (Nat.two_pow_pos pos)
      have hne : (1 : Nat) <<< pos ≠ 0 := by
        rw [hshift]
        exact Nat.pos_iff_ne_zero.mp (Nat.two_pow_pos pos)
      simp [iterItemsAux, if_pos hp, hv, hb, hne, iterItemsAux_eq v k (pos + 1)]
    | false =>
      have hp : ¬ v &&& (1 <<< pos) ≠ 0 := by
        rw [hand, hb, Bool.toNat_false, zero_mul]
        exact fun h => h rfl
      simp [iterItemsAux, if_neg hp, hb, iterItemsAux_eq v k (pos + 1)]

/-- Helper: `KeyPermSet` iteration emits the set bits among positions
0..31 in ascending order. -/
theorem KeyPermSet.toList_eq (s : KeyPermSet) :
    KeyPermSet.toList s =
      ((List.range 32).filter (fun i => Nat.testBit s.bits i)).map
        (fun i => KeyPerm.fromInt (toI32 (1 <<< i))) := by
  unfold KeyPermSet.toList
  rw [iterItemsAux_eq, List.range_eq_range']

/-- Helper: if the oracle allows every permission in `ps`, the grant loop
succeeds and checks each of them, in order. -/
theorem check_grant_loop_all_ok (env : SelinuxEnv) (c t : Context) :
    ∀ ps : List KeyPerm,
      (∀ p ∈ ps,
        env.check_access c t "keystore2_key" (KeyPerm.to_selinux p) = Except.ok ()) →
      check_grant_loop env c t ps =
        (Except.ok (),
          ps.map fun p => AccessCall.mk c t "keystore2_key" (KeyPerm.to_selinux p))
  | [], _ => rfl
  | p :: ps, h => by
    have hp := h p (List.mem_cons_self _ _)
    have hrest :=
      check_grant_loop_all_ok env c t ps (fun q hq => h q (List.mem_cons_of_mem _ hq))
    simp only [check_grant_loop, hp, hrest, List.map_cons]

/-- Helper: the first oracle denial in the grant loop short-circuits the
whole loop; the permissions after it are never checked. -/
theorem check_grant_loop_short (env : SelinuxEnv) (c t : Context) :
    ∀ (ps1 : List KeyPerm) (p : KeyPerm) (ps2 : List KeyPerm) (e : KsError),
      (∀ q ∈ ps1,
        env.check_access c t "keystore2_key" (KeyPerm.to_selinux q) = Except.ok ()) →
      env.check_access c t "keystore2_key" (KeyPerm.to_selinux p) = Except.error e →
      check_grant_loop env c t (ps1 ++ p :: ps2) =
        (Except.error e,
          ps1.map (fun q => AccessCall.mk c t "keystore2_key" (KeyPerm.to_selinux q))
            ++ [AccessCall.mk c t "keystore2_key" (KeyPerm.to_selinux p)])
  | [], p, ps2, e, _, hp => by
    simp only [List.nil_append, check_grant_loop, hp, List.map_nil]
  | q :: ps1, p, ps2, e, h, hp => by
    have hq := h q (List.mem_cons_self _ _)
    have hrest :=
      check_grant_loop_short env c t ps1 p ps2 e
        (fun r hr => h r (List.mem_cons_of_mem _ hr)) hp
    simp [List.cons_append, check_grant_loop, hq, hrest]

/-- Helper: the generated `From<i32>` for `KeyPerm` maps every integer
outside the catalog codes to the `None` default. -/
theorem keyPerm_fromInt_default (n : Int)
    (h : ∀ p : KeyPermission, n ≠ KeyPermission.code p) :
    KeyPerm.fromInt n = KeyPermission.None := by
  unfold KeyPerm.fromInt
  split
  · rfl
  · exact absurd rfl (h KeyPermission.Delete)
  · exact absurd rfl (h KeyPermission.GenUniqueId)
  · exact absurd rfl (h KeyPermission.GetInfo)
  · exact absurd rfl (h KeyPermission.Grant)
  · exact absurd rfl (h KeyPermission.List)
  · exact absurd rfl (h KeyPermission.ManageBlob)
  · exact absurd rfl (h KeyPermission.Rebind)
  · exact absurd rfl (h KeyPermission.ReqForcedOp)
  · exact absurd rfl (h KeyPermission.Update)
  · exact absurd rfl (h KeyPermission.Use)
  · exact absurd rfl (h KeyPermission.UseDevId)
  · rfl

/-- Helper: the generated `From<i32>` for `KeystorePerm` maps every
integer outside the catalog codes to the `None` default. -/
theorem keystorePerm_fromInt_default (n : Int)
    (h : ∀ p : KeystorePermission, n ≠ KeystorePermission.code p) :
    KeystorePerm.fromInt n = KeystorePermission.None := by
  unfold KeystorePerm.fromInt
  split
  · rfl
  · exact absurd rfl (h KeystorePermission.AddAuth)
  · exact absurd rfl (h KeystorePermission.ClearNs)
  · exact absurd rfl (h KeystorePermission.GetState)
  · exact absurd rfl (h KeystorePermission.Lock)
  · exact absurd rfl (h KeystorePermission.Reset)
  · exact absurd rfl (h KeystorePermission.Unlock)
  · rfl

/-- Fixture: an oracle that resolves every context and allows every
access check. -/
def envAllow : SelinuxEnv :=
  { getcon := Except.ok "u:r:keystore:s0"
    newKeystoreKeyBackend :=
      Except.ok (KeystoreKeyBackend.mk fun _ => Except.ok "u:object_r:keystore_key:s0")
    check_access := fun _ _ _ _ => Except.ok () }

/-- Fixture: like `envAllow` but the oracle denies the permission named
`"use"`. -/
def envDenyUse : SelinuxEnv :=
  { envAllow with
    check_access := fun _ _ _ name =>
      if name == "use" then Except.error KsError.perm else Except.ok () }

/-- Fixture: like `envAllow` but the oracle denies the permission named
`"manage_blob"` (and would allow anything else). -/
def envDenyManageBlob : SelinuxEnv :=
  { envAllow with
    check_access := fun _ _ _ name =>
      if name == "manage_blob" then Except.error KsError.perm else Except.ok () }

/-- Fixture: a `Domain::App` key descriptor. -/
def appKey : KeyDescriptor :=
  { domain := Domain.App, namespace_ := 0, alias_ := none, blob := none }

/-- Fixture: a `Domain::Grant` key descriptor. -/
def grantKey : KeyDescriptor :=
  { domain := Domain.Grant, namespace_ := 0, alias_ := none, blob := none }

/-- Fixture: a `Domain::KeyId` key descriptor. -/
def keyIdKey : KeyDescriptor :=
  { domain := Domain.KeyId, namespace_ := 0, alias_ := none, blob := none }

/-- Fixture: a `Domain::Blob` key descriptor. -/
def blobKey : KeyDescriptor :=
  { domain := Domain.Blob, namespace_ := 1, alias_ := none, blob := none }

/-- C1: for every oracle, caller context, key descriptor and requested
permission set containing `KeyPerm::grant()` (bit value 8),
`check_grant_permission` never succeeds; once the target context is
resolved and the class-level "grant" check passes, the result is exactly
the `PermissionDenied` error, whatever other access the oracle would
grant the caller; and the call trace never contains more than the single
class-level check named "grant" — the per-permission loop never issues
one. -/
theorem check_grant_permission_denies_grant_bit
    (env : SelinuxEnv) (caller_ctx : Context) (v : KeyPermSet)
    (key : KeyDescriptor)
    (h : KeyPermSet.includes v (KeyPermSet.ofPerm KeyPermission.Grant) = true) :
    (check_grant_permission env caller_ctx v key).1 ≠ Except.ok () ∧
    (∀ t, grant_target_context env key = Except.ok t →
      env.check_access caller_ctx t "keystore2_key" "grant" = Except.ok () →
      (check_grant_permission env caller_ctx v key).1 = Except.error KsError.perm) ∧
    ((check_grant_permission env caller_ctx v key).2.filter
        (fun cl => cl.perm == "grant")).length ≤ 1 := by
  cases hres : grant_target_context env key with
  | error e =>
    have hrun : check_grant_permission env caller_ctx v key =
        (Except.error e, []) := by
      simp [check_grant_permission, hres]
    refine ⟨?_, ?_, ?_⟩
    · simp [hrun]
    · intro t ht
      exact absurd ht (by simp)
    · simp [hrun]
  | ok t =>
    cases hca : env.check_access caller_ctx t "keystore2_key" "grant" with
    | error e =>
      have hrun : check_grant_permission env caller_ctx v key =
          (Except.error e,
            [AccessCall.mk caller_ctx t "keystore2_key" "grant"]) := by
        simp [check_grant_permission, hres, hca]
      refine ⟨?_, ?_, ?_⟩
      · simp [hrun]
      · intro t2 ht2 hok
        injection ht2 with ht2
        subst ht2
        rw [hca] at hok
        exact absurd hok (by simp)
      · simp [hrun, List.filter]
    | ok u =>
      cases u
      have hrun : check_grant_permission env caller_ctx v key =
          (Except.error KsError.perm,
            [AccessCall.mk caller_ctx t "keystore2_key" "grant"]) := by
        simp [check_grant_permission, hres, hca, h]
      refine ⟨?_, ?_, ?_⟩
      · simp [hrun]
      · intro t2 ht2 hok
        simp [hrun]
      · simp [hrun, List.filter]

/-- C1 witness: an all-allowing oracle, a `Domain::App` key and the
request `{grant}` still end in `PermissionDenied`, with at most the one
class-level "grant" check in the trace. -/
theorem check_grant_permission_denies_grant_bit_witness :
    (check_grant_permission envAllow "u:r:system_server:s0"
        (KeyPermSet.ofPerm KeyPermission.Grant) appKey).1 =
      Except.error KsError.perm ∧
    ((check_grant_permission envAllow "u:r:system_server:s0"
        (KeyPermSet.ofPerm KeyPermission.Grant) appKey).2.filter
        (fun cl => cl.perm == "grant")).length ≤ 1 := by
  have h := check_grant_permission_denies_grant_bit envAllow "u:r:system_server:s0"
    (KeyPermSet.ofPerm KeyPermission.Grant) appKey (by decide)
  exact ⟨h.2.1 "u:r:keystore:s0" rfl rfl, h.2.2⟩

/-- C2: for every oracle, caller context and permission, on a
`Domain::Grant` key descriptor `check_key_permission` is decided without
any backend interaction: a missing access vector is the `SystemError`,
and a supplied vector `v` yields success exactly when `v` includes the
permission, `PermissionDenied` otherwise — with an empty call trace in
all cases. -/
theorem check_key_permission_grant_domain_local
    (env : SelinuxEnv) (caller_ctx : Context) (perm : KeyPerm)
    (key : KeyDescriptor) (v : KeyPermSet) (hd : key.domain = Domain.Grant) :
    check_key_permission env caller_ctx perm key none =
      (Except.error KsError.sys, ([] : List AccessCall)) ∧
    check_key_permission env caller_ctx perm key (some v) =
      (if KeyPermSet.includes v (KeyPermSet.ofPerm perm) then
        (Except.ok (), ([] : List AccessCall))
      else (Except.error KsError.perm, ([] : List AccessCall))) := by
  refine ⟨?_, ?_⟩
  · simp [check_key_permission, hd]
  · by_cases hv : KeyPermSet.includes v (KeyPermSet.ofPerm perm) = true
    · simp [check_key_permission, hd, hv]
    · simp [check_key_permission, hd, hv]

/-- C2 witness: domain `Grant` with no access vector is a `SystemError`;
with the vector `{delete, use}` (bits `0x201`), checking `use` is decided
locally. -/
theorem check_key_permission_grant_domain_local_witness :
    check_key_permission envAllow "caller" KeyPermission.Use grantKey none =
      (Except.error KsError.sys, ([] : List AccessCall)) ∧
    check_key_permission envAllow "caller" KeyPermission.Use grantKey
        (some (KeyPermSet.mk 0x201)) =
      (if KeyPermSet.includes (KeyPermSet.mk 0x201)
          (KeyPermSet.ofPerm KeyPermission.Use) then
        (Except.ok (), ([] : List AccessCall))
      else (Except.error KsError.perm, ([] : List AccessCall))) :=
  check_key_permission_grant_domain_local envAllow "caller" KeyPermission.Use
    grantKey (KeyPermSet.mk 0x201) rfl

/-- C3: for every oracle, caller context, permission and access vector,
on a `Domain::Blob` key whose namespace resolves to target `t`, the
check succeeds iff the oracle allows both "manage_blob" and the requested
permission against `t` in class `keystore2_key`; a "manage_blob" denial
is the overall outcome even though the requested permission was never
reached; and when "manage_blob" passes, exactly the two checks appear in
the trace. -/
theorem check_key_permission_blob_requires_manage_blob
    (env : SelinuxEnv) (caller_ctx : Context) (perm : KeyPerm)
    (key : KeyDescriptor) (av : Option KeyPermSet) (t : Context)
    (hd : key.domain = Domain.Blob)
    (hl : lookup_namespace env key.namespace_ = Except.ok t) :
    ((check_key_permission env caller_ctx perm key av).1 = Except.ok () ↔
      env.check_access caller_ctx t "keystore2_key" "manage_blob" = Except.ok () ∧
      env.check_access caller_ctx t "keystore2_key" (KeyPerm.to_selinux perm) =
        Except.ok ()) ∧
    (∀ e, env.check_access caller_ctx t "keystore2_key" "manage_blob" =
        Except.error e →
      check_key_permission env caller_ctx perm key av =
        (Except.error e,
          [AccessCall.mk caller_ctx t "keystore2_key" "manage_blob"])) ∧
    (env.check_access caller_ctx t "keystore2_key" "manage_blob" = Except.ok () →
      check_key_permission env caller_ctx perm key av =
        (env.check_access caller_ctx t "keystore2_key" (KeyPerm.to_selinux perm),
          [AccessCall.mk caller_ctx t "keystore2_key" "manage_blob",
           AccessCall.mk caller_ctx t "keystore2_key" (KeyPerm.to_selinux perm)])) := by
  refine ⟨?_, ?_, ?_⟩
  · cases hmb : env.check_access caller_ctx t "keystore2_key" "manage_blob" with
    | error e => simp [check_key_permission, hd, hl, KeyPerm.to_selinux, hmb]
    | ok u =>
      cases u
      simp [check_key_permission, hd, hl, KeyPerm.to_selinux, hmb]
  · intro e hmb
    simp [check_key_permission, hd, hl, KeyPerm.to_selinux, hmb]
  · intro hmb
    simp [check_key_permission, hd, hl, KeyPerm.to_selinux, hmb]

/-- C3 witness: with an oracle that denies "manage_blob" but allows
everything else (in particular it would allow "use"), a `Domain::Blob`
check of `use` is denied after the single "manage_blob" check. -/
theorem check_key_permission_blob_requires_manage_blob_witness :
    check_key_permission envDenyManageBlob "caller" KeyPermission.Use blobKey none =
      (Except.error KsError.perm,
        [AccessCall.mk "caller" "u:object_r:keystore_key:s0" "keystore2_key"
          "manage_blob"]) := by
  have h := check_key_permission_blob_requires_manage_blob envDenyManageBlob
    "caller" KeyPermission.Use blobKey none "u:object_r:keystore_key:s0" rfl rfl
  exact h.2.1 KsError.perm rfl

/-- C4: for every oracle, caller context, permission and access vector
(whatever its value), a `Domain::KeyId` key descriptor makes
`check_key_permission` return the `SystemError` with an empty call
trace — never success, never a `PermissionDenied` verdict. -/
theorem check_key_permission_key_id_sys_error
    (env : SelinuxEnv) (caller_ctx : Context) (perm : KeyPerm)
    (key : KeyDescriptor) (av : Option KeyPermSet)
    (hd : key.domain = Domain.KeyId) :
    check_key_permission env caller_ctx perm key av =
      (Except.error KsError.sys, ([] : List AccessCall)) := by
  simp [check_key_permission, hd]

/-- C4 witness: `Domain::KeyId` under the all-allowing oracle is still a
`SystemError` with no backend call. -/
theorem check_key_permission_key_id_sys_error_witness :
    check_key_permission envAllow "caller" KeyPermission.Use keyIdKey none =
      (Except.error KsError.sys, ([] : List AccessCall)) :=
  check_key_permission_key_id_sys_error envAllow "caller" KeyPermission.Use
    keyIdKey none rfl

/-- C5: both generated `From<i32>` conversions are total and fail-closed:
every defined catalog code decodes to its entry, and every integer that
matches no defined entry decodes to the catalog's `None` sentinel. -/
theorem perm_decode_total_fail_closed :
    (∀ p : KeyPermission, KeyPerm.fromInt (KeyPermission.code p) = p) ∧
    (∀ n : Int, (∀ p : KeyPermission, n ≠ KeyPermission.code p) →
      KeyPerm.fromInt n = KeyPermission.None) ∧
    (∀ p : KeystorePermission,
      KeystorePerm.fromInt (KeystorePermission.code p) = p) ∧
    (∀ n : Int, (∀ p : KeystorePermission, n ≠ KeystorePermission.code p) →
      KeystorePerm.fromInt n = KeystorePermission.None) :=
  ⟨by decide, keyPerm_fromInt_default, by decide, keystorePerm_fromInt_default⟩

/-- C5 witness: 3 is no key-permission code and 1000 is no
service-permission code; both decode to `None`. -/
theorem perm_decode_total_fail_closed_witness :
    KeyPerm.fromInt 3 = KeyPermission.None ∧
    KeystorePerm.fromInt 1000 = KeystorePermission.None := by
  have h := perm_decode_total_fail_closed
  exact ⟨h.2.1 3 (by decide), h.2.2.2 1000 (by decide)⟩

/-- C6: `KeyPermSet::includes` is the bitwise-superset test — true exactly
when `self & other == other`; hence it is reflexive, every set includes
the empty set, a set missing one of `other`'s bits does not include it,
and the relation is transitive but not symmetric. -/
theorem key_perm_set_includes_spec :
    (∀ A B : KeyPermSet,
      (KeyPermSet.includes A B = true ↔ A.bits &&& B.bits = B.bits)) ∧
    (∀ A : KeyPermSet, KeyPermSet.includes A A = true) ∧
    (∀ A : KeyPermSet, KeyPermSet.includes A (KeyPermSet.mk 0) = true) ∧
    (∀ A B : KeyPermSet,
      (∃ i, Nat.testBit B.bits i = true ∧ Nat.testBit A.bits i = false) →
      KeyPermSet.includes A B = false) ∧
    (∀ A B C : KeyPermSet, KeyPermSet.includes A B = true →
      KeyPermSet.includes B C = true → KeyPermSet.includes A C = true) ∧
    (∃ A B : KeyPermSet,
      KeyPermSet.includes A B = true ∧ KeyPermSet.includes B A = false) := by
  have hiff : ∀ A B : KeyPermSet,
      (KeyPermSet.includes A B = true ↔ A.bits &&& B.bits = B.bits) := by
    intro A B
    simp [KeyPermSet.includes]
  refine ⟨hiff, ?_, ?_, ?_, ?_, ?_⟩
  · intro A
    exact (hiff A A).mpr (Nat.and_self A.bits)
  · intro A
    exact (hiff A (KeyPermSet.mk 0)).mpr (Nat.and_zero A.bits)
  · intro A B hex
    obtain ⟨i, hB, hA⟩ := hex
    cases hinc : KeyPermSet.includes A B with
    | false => rfl
    | true =>
      exfalso
      have hland := (hiff A B).mp hinc
      have ht := congrArg (fun n => Nat.testBit n i) hland
      simp only [Nat.testBit_land, hA, hB, Bool.false_and] at ht
      exact Bool.false_ne_true ht
  · intro A B C hab hbc
    have h1 := (hiff A B).mp hab
    have h2 := (hiff B C).mp hbc
    refine (hiff A C).mpr ?_
    calc A.bits &&& C.bits
        = A.bits &&& (B.bits &&& C.bits) := by rw [h2]
      _ = (A.bits &&& B.bits) &&& C.bits := by rw [Nat.and_assoc]
      _ = B.bits &&& C.bits := by rw [h1]
      _ = C.bits := h2
  · exact ⟨KeyPermSet.mk 1, KeyPermSet.mk 0, by decide, by decide⟩

/-- C6 witness: transitivity applied at `{7} ⊇ {3} ⊇ {1}` and the
missing-bit criterion applied at `A = 1`, `B = 2` (bit 1 set in `B`,
clear in `A`). -/
theorem key_perm_set_includes_spec_witness :
    KeyPermSet.includes (KeyPermSet.mk 7) (KeyPermSet.mk 1) = true ∧
    KeyPermSet.includes (KeyPermSet.mk 1) (KeyPermSet.mk 2) = false := by
  have h := key_perm_set_includes_spec
  exact ⟨h.2.2.2.2.1 (KeyPermSet.mk 7) (KeyPermSet.mk 3) (KeyPermSet.mk 1)
      (by decide) (by decide),
    h.2.2.2.1 (KeyPermSet.mk 1) (KeyPermSet.mk 2) ⟨1, by decide, by decide⟩⟩

/-- C7: iterating a `KeyPermSet` yields exactly the permissions whose
bits are set, decoded from their isolated bit value, in strictly
ascending bit-position order over positions 0..31; in particular the set
built from `{use, manage_blob, grant}` iterates as
`[grant, manage_blob, use]`. -/
theorem key_perm_set_iter_ascending :
    (∀ s : KeyPermSet, KeyPermSet.toList s =
      ((List.range 32).filter (fun i => Nat.testBit s.bits i)).map
        (fun i => KeyPerm.fromInt (toI32 (1 <<< i)))) ∧
    KeyPermSet.toList
        (key_perm_set
          [KeyPermission.Use, KeyPermission.ManageBlob, KeyPermission.Grant]) =
      [KeyPermission.Grant, KeyPermission.ManageBlob, KeyPermission.Use] :=
  ⟨KeyPermSet.toList_eq, by decide⟩

/-- C8: once the target context is resolved, the class-level "grant"
check passed and the requested set does not contain `grant`, the run is
the class-level check followed by the per-permission loop over the
iteration order of the set (ascending bit positions); the loop checks
each permission's selinux name in class `keystore2_key`, the first oracle
denial is returned as the overall result without checking the remaining
permissions, and the loop succeeds only when every permission passes. -/
theorem check_grant_permission_loop_order_short_circuit
    (env : SelinuxEnv) (caller_ctx : Context) (v : KeyPermSet)
    (key : KeyDescriptor) (t : Context)
    (h1 : grant_target_context env key = Except.ok t)
    (h2 : env.check_access caller_ctx t "keystore2_key" "grant" = Except.ok ())
    (h3 : KeyPermSet.includes v (KeyPermSet.ofPerm KeyPermission.Grant) = false) :
    check_grant_permission env caller_ctx v key =
      ((check_grant_loop env caller_ctx t (KeyPermSet.toList v)).1,
        AccessCall.mk caller_ctx t "keystore2_key" "grant" ::
          (check_grant_loop env caller_ctx t (KeyPermSet.toList v)).2) ∧
    (∀ s : KeyPermSet, KeyPermSet.toList s =
      ((List.range 32).filter (fun i => Nat.testBit s.bits i)).map
        (fun i => KeyPerm.fromInt (toI32 (1 <<< i)))) ∧
    (∀ ps : List KeyPerm,
      (∀ p ∈ ps, env.check_access caller_ctx t "keystore2_key"
        (KeyPerm.to_selinux p) = Except.ok ()) →
      check_grant_loop env caller_ctx t ps =
        (Except.ok (), ps.map fun p =>
          AccessCall.mk caller_ctx t "keystore2_key" (KeyPerm.to_selinux p))) ∧
    (∀ (ps1 : List KeyPerm) (p : KeyPerm) (ps2 : List KeyPerm) (e : KsError),
      (∀ q ∈ ps1, env.check_access caller_ctx t "keystore2_key"
        (KeyPerm.to_selinux q) = Except.ok ()) →
      env.check_access caller_ctx t "keystore2_key" (KeyPerm.to_selinux p) =
        Except.error e →
      check_grant_loop env caller_ctx t (ps1 ++ p :: ps2) =
        (Except.error e,
          ps1.map (fun q =>
            AccessCall.mk caller_ctx t "keystore2_key" (KeyPerm.to_selinux q))
            ++ [AccessCall.mk caller_ctx t "keystore2_key"
                 (KeyPerm.to_selinux p)])) := by
  refine ⟨?_, KeyPermSet.toList_eq, check_grant_loop_all_ok env caller_ctx t,
    check_grant_loop_short env caller_ctx t⟩
  simp [check_grant_permission, h1, h2, h3]

/-- C8 witness: requesting `{delete, use}` under an oracle that denies
"use" runs the class-level "grant" check, then "delete" (allowed), then
"use" (denied), which is returned without further checks. -/
theorem check_grant_permission_loop_order_short_circuit_witness :
    check_grant_permission envDenyUse "caller" (KeyPermSet.mk 0x201) appKey =
      (Except.error KsError.perm,
        [AccessCall.mk "caller" "u:r:keystore:s0" "keystore2_key" "grant",
         AccessCall.mk "caller" "u:r:keystore:s0" "keystore2_key" "delete",
         AccessCall.mk "caller" "u:r:keystore:s0" "keystore2_key" "use"]) := by
  have h := check_grant_permission_loop_order_short_circuit envDenyUse "caller"
    (KeyPermSet.mk 0x201) appKey "u:r:keystore:s0" rfl rfl (by decide)
  exact h.1.trans rfl

/-- C9: on a `Domain::Grant` key, checking the `None` sentinel (code 0)
against any supplied access vector — the empty one included — succeeds,
because the zero bitset is included in every vector; the sentinel the
catalog says can never be granted is thus always treated as granted
here. -/
theorem check_key_permission_grant_domain_none_sentinel_ok
    (env : SelinuxEnv) (caller_ctx : Context) (key : KeyDescriptor)
    (v : KeyPermSet) (hd : key.domain = Domain.Grant) :
    check_key_permission env caller_ctx KeyPermission.None key (some v) =
      (Except.ok (), ([] : List AccessCall)) := by
  have hinc : KeyPermSet.includes v (KeyPermSet.ofPerm KeyPermission.None) = true := by
    simp [KeyPermSet.includes, KeyPermSet.ofPerm, KeyPermission.code]
  simp [check_key_permission, hd, hinc]

/-- C9 witness: the `None` sentinel is "granted" even by the empty access
vector. -/
theorem check_key_permission_grant_domain_none_sentinel_ok_witness :
    check_key_permission envAllow "caller" KeyPermission.None grantKey
        (some (KeyPermSet.mk 0)) =
      (Except.ok (), ([] : List AccessCall)) :=
  check_key_permission_grant_domain_none_sentinel_ok envAllow "caller" grantKey
    (KeyPermSet.mk 0) rfl

/-- C10: granting the empty permission set succeeds whenever target
resolution and the class-level "grant" check succeed: the grant-bit test
passes vacuously and the per-permission loop checks nothing, so the trace
is exactly the one class-level call. -/
theorem check_grant_permission_empty_set_ok
    (env : SelinuxEnv) (caller_ctx : Context) (key : KeyDescriptor) (t : Context)
    (h1 : grant_target_context env key = Except.ok t)
    (h2 : env.check_access caller_ctx t "keystore2_key" "grant" = Except.ok ()) :
    check_grant_permission env caller_ctx (KeyPermSet.mk 0) key =
      (Except.ok (),
        [AccessCall.mk caller_ctx t "keystore2_key" "grant"]) := by
  have h3 : KeyPermSet.includes (KeyPermSet.mk 0)
      (KeyPermSet.ofPerm KeyPermission.Grant) = false := by decide
  have hnil : KeyPermSet.toList (KeyPermSet.mk 0) = [] := by decide
  simp [check_grant_permission, h1, h2, h3, hnil, check_grant_loop]

/-- C10 witness: the all-allowing oracle grants the empty set for a
`Domain::App` key with exactly one backend call. -/
theorem check_grant_permission_empty_set_ok_witness :
    check_grant_permission envAllow "caller" (KeyPermSet.mk 0) appKey =
      (Except.ok (),
        [AccessCall.mk "caller" "u:r:keystore:s0" "keystore2_key" "grant"]) :=
  check_grant_permission_empty_set_ok envAllow "caller" appKey
    "u:r:keystore:s0" rfl rfl

end Keystore2
